import Mathlib

/-!
Shallow embedding of `src/page.ts` of the astral browser-automation
library, together with proofs about its page-level synchronization
engine: the network-idle detector, the navigation completion protocol,
the remote evaluation bridge, the resilient document-root resolver, the
close routine and the event-listener bookkeeping.

Conventions of the embedding:
* JavaScript numbers used as counters are modelled as `Int` so that the
  absence of negative values is a theorem rather than a typing artifact.
* Callback-driven waits are modelled as explicit state machines driven by
  a list of events (the single-threaded event-loop delivers callbacks in
  order, so a run is a fold over the event list).
* Asynchronous composition (`Promise.all`, sequential `await`) is
  modelled by a small combinator language with an explicit start-time and
  finish-time semantics.
* The listener table of an `EventTarget` is modelled as a list of
  (event-type, listener-identity) pairs with the standard DOM semantics:
  `removeEventListener` only removes a pair whose event-type string and
  listener identity both match exactly.
-/

namespace Astral

/-! ## Page constants (`src/page.ts`) -/

/-- `readonly timeout = 10000` — the shared default deadline of a page. -/
def pageTimeout : Nat := 10000

/-! ## EventTarget listener table

`Celestial` is a standard `EventTarget`: listeners are keyed by the exact
event-type string together with the listener function identity.
Listener functions are identified by a `Nat` tag. -/

abbrev Listeners := List (String × Nat)

/-- `addEventListener(type, fn)`: a duplicate (type, listener) pair is not
added twice; otherwise the pair is appended. -/
def addListener (l : Listeners) (type : String) (fn : Nat) : Listeners :=
  if (type, fn) ∈ l then l else l ++ [(type, fn)]

/-- `removeEventListener(type, fn)`: removes the pair whose event-type
string and listener identity both match exactly; removing with a type
string that was never registered is a no-op. -/
def removeListener (l : Listeners) (type : String) (fn : Nat) : Listeners :=
  l.filter (fun p => p ≠ (type, fn))

/-- Listener identity of the `requestStarted` closure in
`waitForNetworkIdle`. -/
def requestStartedFn : Nat := 0

/-- Listener identity of the `requestFinished` closure in
`waitForNetworkIdle` (registered for both loading-failed and
loading-finished). -/
def requestFinishedFn : Nat := 1

/-- Listener identity of the `callback` closure in `waitForNavigation`
with the load criterion. -/
def loadCallbackFn : Nat := 2

/-- The three `addEventListener` calls made when `waitForNetworkIdle`
starts (source lines 484-495): event types use dots. -/
def waitForNetworkIdleSubscribe (l : Listeners) : Listeners :=
  addListener
    (addListener
      (addListener l ("Network.requestWillBeSent") requestStartedFn)
      ("Network.loadingFailed") requestFinishedFn)
    ("Network.loadingFinished") requestFinishedFn

/-- The three `removeEventListener` calls made by `timeoutDone` when the
idle wait completes (source lines 449-461): event types use underscores. -/
def timeoutDoneUnsubscribe (l : Listeners) : Listeners :=
  removeListener
    (removeListener
      (removeListener l ("Network_requestWillBeSent") requestStartedFn)
      ("Network_loadingFailed") requestFinishedFn)
    ("Network_loadingFinished") requestFinishedFn

/-- The `addEventListener` call made when `waitForNavigation` with the
load criterion starts (source line 423). -/
def loadWaitSubscribe (l : Listeners) : Listeners :=
  addListener l ("Page.loadEventFired") loadCallbackFn

/-- The `removeEventListener` call made by `callback` when the load wait
resolves (source lines 418-421). -/
def loadWaitUnsubscribe (l : Listeners) : Listeners :=
  removeListener l ("Page_loadEventFired") loadCallbackFn

/-! ## Network-idle detector (`waitForNetworkIdle`, source lines 443-499)

The wait is a state machine driven by protocol events and the timer.
The timer handle is `some idleTime` when a timeout is armed (the armed
duration is always the idle duration) and `none` when it is cleared. -/

/-- Events a single network-idle wait can receive: the three subscribed
protocol events (loading-failed and loading-finished run the same
`requestFinished` handler) and the firing of the armed timer. -/
inductive NetEvent where
  | requestWillBeSent
  | loadingFinished
  | loadingFailed
  | timerFire
  deriving DecidableEq, Repr

/-- State of one `waitForNetworkIdle` wait: the `inflight` counter, the
timer handle (`some d` = armed for duration `d`, `none` = cleared), and
whether `resolve` has run. -/
structure IdleState where
  inflight : Int
  timer : Option Nat
  resolved : Bool
  deriving DecidableEq, Repr

/-- Initial state: `let timeout = setTimeout(timeoutDone, idleTime)` and
`let inflight = 0` at subscription time. -/
def idleInit (idleTime : Nat) : IdleState :=
  { inflight := 0, timer := some idleTime, resolved := false }

/-- The `requestStarted` handler (source lines 469-474): increment the
counter, and clear the timer when the counter is strictly above
`idleConnections`. -/
def requestStarted (idleConnections : Int) (s : IdleState) : IdleState :=
  let s := { s with inflight := s.inflight + 1 }
  if s.inflight > idleConnections then { s with timer := none } else s

/-- The `requestFinished` handler (source lines 476-482): return early
when the counter is zero, otherwise decrement, and re-arm the timer for
`idleTime` when the counter is back at exactly `idleConnections`. -/
def requestFinished (idleTime : Nat) (idleConnections : Int) (s : IdleState) : IdleState :=
  if s.inflight = 0 then s
  else
    let s := { s with inflight := s.inflight - 1 }
    if s.inflight = idleConnections then { s with timer := some idleTime } else s

/-- The armed timer firing runs `timeoutDone`, which resolves the
promise; a cleared timer never fires. A second `resolve` on an already
resolved promise is a no-op, which the sticky `resolved` flag reflects. -/
def timerFired (s : IdleState) : IdleState :=
  match s.timer with
  | some _ => { s with timer := none, resolved := true }
  | none => s

/-- One event-loop callback delivery of a network-idle wait. -/
def idleStep (idleTime : Nat) (idleConnections : Int) (s : IdleState) : NetEvent → IdleState
  | .requestWillBeSent => requestStarted idleConnections s
  | .loadingFinished => requestFinished idleTime idleConnections s
  | .loadingFailed => requestFinished idleTime idleConnections s
  | .timerFire => timerFired s

/-- Run one network-idle wait from subscription over a list of delivered
events. -/
def idleRun (idleTime : Nat) (idleConnections : Int) (events : List NetEvent) : IdleState :=
  events.foldl (idleStep idleTime idleConnections) (idleInit idleTime)

/-- Option defaulting of `waitForNetworkIdle` (source lines 444-445):
`idleTime = options?.idleTime ?? 500`,
`idleConnections = options?.idleConnections ?? 0`. -/
structure WaitForNetworkIdleOptions where
  idleTime : Option Nat := none
  idleConnections : Option Nat := none
  deriving DecidableEq, Repr

/-- The (idleTime, idleConnections) pair a `waitForNetworkIdle` call
actually uses. -/
def waitForNetworkIdleParams (options : Option WaitForNetworkIdleOptions) : Nat × Nat :=
  ((options.bind (·.idleTime)).getD 500, (options.bind (·.idleConnections)).getD 0)

/-! ## Navigation completion protocol (`waitForNavigation`, lines 406-438)

A navigation wait is a sequence of phases awaited one after the other:
for a non-load criterion the code first awaits a recursive
`waitForNavigation({waitUntil: "load"})` and only then starts the
network-idle wait. -/

inductive WaitUntil where
  | load
  | networkidle0
  | networkidle2
  deriving DecidableEq, Repr

/-- `WaitForOptions` of the source: `waitUntil` may be absent. -/
structure WaitForOptions where
  waitUntil : Option WaitUntil := none
  deriving DecidableEq, Repr

/-- One awaited phase of a navigation wait: the one-shot load-event wait,
or a network-idle wait with the given idle duration and idle threshold. -/
inductive NavPhase where
  | loadWait
  | idleWait (idleTime : Nat) (idleConnections : Nat)
  deriving DecidableEq, Repr

/-- The sequence of phases `waitForNavigation(options)` awaits, in
execution order. Mirrors the source: `options = options ?? {waitUntil:
"networkidle2"}`; when `waitUntil` is not load, first the recursive load
wait; then one phase chosen by `waitUntil` — the load-event listener, or
`waitForNetworkIdle({idleTime: 500})`, or `waitForNetworkIdle({idleTime:
500, idleConnections: 2})` (their thresholds obtained through the option
defaulting of `waitForNetworkIdle`). -/
def waitForNavigationPhases (options : Option WaitForOptions) : List NavPhase :=
  (if _h : (options.getD { waitUntil := some .networkidle2 }).waitUntil ≠ some WaitUntil.load then
      waitForNavigationPhases (some { waitUntil := some WaitUntil.load })
    else []) ++
  (if (options.getD { waitUntil := some .networkidle2 }).waitUntil = some WaitUntil.load then
      [NavPhase.loadWait]
    else if (options.getD { waitUntil := some .networkidle2 }).waitUntil
        = some WaitUntil.networkidle0 then
      [NavPhase.idleWait (waitForNetworkIdleParams (some { idleTime := some 500 })).1
        (waitForNetworkIdleParams (some { idleTime := some 500 })).2]
    else
      [NavPhase.idleWait
        (waitForNetworkIdleParams (some { idleTime := some 500, idleConnections := some 2 })).1
        (waitForNetworkIdleParams (some { idleTime := some 500, idleConnections := some 2 })).2])
termination_by
  (if (options.getD { waitUntil := some .networkidle2 }).waitUntil = some WaitUntil.load
    then 0 else 1 : Nat)
decreasing_by
  simp_all

/-- Time at which a sequence of phases awaited one after the other has
fully resolved, given the duration of each phase. -/
def navResolveTime (d : NavPhase → Nat) (phases : List NavPhase) : Nat :=
  (phases.map d).sum

/-! ## Concurrent scheduling of goto and reload (lines 312-321, 349-354)

A small combinator language for promise composition, with a start-time
and finish-time semantics parametrized by the duration of each primitive
operation. `allOf` is `Promise.all` of two promises, `andThen` is
sequential awaiting. -/

inductive PrimOp where
  | navigateRpc
  | reloadRpc
  | navigationWait
  deriving DecidableEq, Repr

inductive Async where
  | prim : PrimOp → Async
  | withDeadline : Async → Nat → Async
  | allOf : Async → Async → Async
  | andThen : Async → Async → Async
  deriving DecidableEq, Repr

/-- Settlement time of a composed promise started at time `t`, given each
primitive's duration: `Promise.all` settles when both arms have settled;
the deadline wrapper settles at its operand's settlement or at the
deadline, whichever is first. -/
def finishTime (d : PrimOp → Nat) : Async → Nat → Nat
  | .prim p, t => t + d p
  | .withDeadline a dl, t => min (finishTime d a t) (t + dl)
  | .allOf a b, t => max (finishTime d a t) (finishTime d b t)
  | .andThen a b, t => finishTime d b (finishTime d a t)

/-- Start times of every primitive inside a composed promise started at
time `t`: both arms of `Promise.all` start immediately; the second arm of
a sequential composition starts when the first has settled. -/
def startTimes (d : PrimOp → Nat) : Async → Nat → List (PrimOp × Nat)
  | .prim p, t => [(p, t)]
  | .withDeadline a _, t => startTimes d a t
  | .allOf a b, t => startTimes d a t ++ startTimes d b t
  | .andThen a b, t => startTimes d a t ++ startTimes d b (finishTime d a t)

/-- `goto` (source lines 312-321): `Promise.all` of the deadline-wrapped
`Page.navigate` RPC and `waitForNavigation(options)`. The url, referrer
and options do not affect the scheduling structure. -/
def gotoAsync : Async :=
  Async.allOf (Async.withDeadline (Async.prim PrimOp.navigateRpc) pageTimeout)
    (Async.prim PrimOp.navigationWait)

/-- `reload` (source lines 349-354): `Promise.all` of the deadline-wrapped
`Page.reload` RPC and `waitForNavigation(options)`. -/
def reloadAsync : Async :=
  Async.allOf (Async.withDeadline (Async.prim PrimOp.reloadRpc) pageTimeout)
    (Async.prim PrimOp.navigationWait)

/-! ## Resilient root resolver (`#getRoot`, lines 104-117) -/

/-- The retry loop of `#getRoot`: issue `DOM.getDocument` and return as
soon as an attempt yields a non-empty result. `resp k` is the result of
the k-th RPC attempt (`none` = empty result); each attempt takes one
abstract time unit, and the loop has no inter-attempt delay, so the loop
run for `fuel` time units performs exactly `fuel` attempts. -/
def getDocumentLoop (resp : Nat → Option Nat) : Nat → Option Nat
  | 0 => none
  | fuel + 1 =>
    match resp 0 with
    | some root => some root
    | none => getDocumentLoop (fun n => resp (n + 1)) fuel

/-- Modelled from the spec: the Deadline Executor (`retryDeadline` of
`util.ts`, which is not under `src/`) races an already-started pending
computation against a timer of `budget` time units; the computation is
step-indexed (`op k` = its result if it has completed within `k` units),
the executor returns that result when the computation wins and fails with
a deadline error when the timer wins. -/
def retryDeadline (op : Nat → Option Nat) (budget : Nat) : Except String Nat :=
  match op budget with
  | some v => Except.ok v
  | none => Except.error ("DeadlineExceeded")

/-- `#getRoot` (source lines 104-117): the `DOM.getDocument` retry loop
wrapped by the deadline executor, with an explicit budget. -/
def getRootModel (resp : Nat → Option Nat) (budget : Nat) : Except String Nat :=
  retryDeadline (getDocumentLoop resp) budget

/-- `#getRoot` as called, with the page default timeout as the budget. -/
def getRoot (resp : Nat → Option Nat) : Except String Nat :=
  getRootModel resp pageTimeout

/-! ## Remote evaluation bridge (`evaluate`, lines 259-293) -/

/-- JavaScript values as far as the embedding needs them. -/
inductive JSValue where
  | undefinedVal
  | nullVal
  | boolVal (b : Bool)
  | numVal (n : Int)
  | strVal (s : String)
  deriving DecidableEq, Repr

/-- JavaScript truthiness of a `JSValue`. -/
def truthy : JSValue → Bool
  | .undefinedVal => false
  | .nullVal => false
  | .boolVal b => b
  | .numVal n => n != 0
  | .strVal s => s != ""

/-- A protocol `RemoteObject` as consumed by `evaluate`. -/
structure RemoteObject where
  type : String
  subtype : Option String := none
  value : Option JSValue := none
  unserializableValue : Option String := none
  deriving DecidableEq, Repr

/-- The response of `Runtime.evaluate` as consumed by `evaluate`. -/
structure EvaluateResponse where
  result : RemoteObject
  exceptionDetails : Option String := none
  deriving DecidableEq, Repr

/-- What `evaluate` does with a response: throw the exception details,
or produce a big integer, undefined, null, or the transported value. -/
inductive EvalOutcome where
  | thrown (details : String)
  | bigintVal (n : Int)
  | undefinedVal
  | nullVal
  | plainVal (v : Option JSValue)
  deriving DecidableEq, Repr

/-- Value of a decimal digit string. -/
def parseDigits (l : List Char) : Nat :=
  l.foldl (fun acc c => 10 * acc + (c.toNat - 48)) 0

/-- `BigInt(s)` on the decimal string encodings the protocol produces. -/
def parseBigInt (s : String) : Int :=
  match s.data with
  | '-' :: rest => -(parseDigits rest : Int)
  | l => (parseDigits l : Int)

/-- `s.slice(0, -1)`: the string without its final character. -/
def sliceDropLast (s : String) : String :=
  ⟨s.data.dropLast⟩

/-- Result unmarshalling of `evaluate` (source lines 278-292), mirroring
the branch structure: thrown exception details first; then the bigint
parse of the unserializable string encoding without its trailing marker
(the source asserts the encoding present with a non-null assertion; an
absent encoding is defaulted); then undefined; then null for an object
of subtype null, any other object falling through to the transported
value; then the transported value. -/
def evaluateUnmarshal (r : EvaluateResponse) : EvalOutcome :=
  match r.exceptionDetails with
  | some d => EvalOutcome.thrown d
  | none =>
    if r.result.type = "bigint" then
      EvalOutcome.bigintVal
        (parseBigInt (sliceDropLast ((r.result.unserializableValue).getD (""))))
    else if r.result.type = "undefined" then
      EvalOutcome.undefinedVal
    else if r.result.type = "object" then
      if r.result.subtype = some ("null") then
        EvalOutcome.nullVal
      else
        EvalOutcome.plainVal r.result.value
    else
      EvalOutcome.plainVal r.result.value

/-- The inner polling loop of `waitForFunction` (source lines 390-398):
repeatedly evaluate until a truthy result; `evalStream k` is the value
the k-th evaluation produces, one abstract time unit per evaluation. -/
def pollLoop (evalStream : Nat → JSValue) : Nat → Option JSValue
  | 0 => none
  | fuel + 1 =>
    if truthy (evalStream 0) then some (evalStream 0)
    else pollLoop (fun n => evalStream (n + 1)) fuel

/-- `waitForFunction` (source lines 384-401): awaits the deadline-bounded
polling loop, but the method body has no return statement, so the async
method resolves with undefined whatever value the loop produced. -/
def waitForFunctionModel (evalStream : Nat → JSValue) (budget : Nat) : Except String JSValue :=
  match pollLoop evalStream budget with
  | some _ => Except.ok JSValue.undefinedVal
  | none => Except.error ("DeadlineExceeded")

/-! ## close (`close`, lines 184-199) -/

/-- `indexOf` followed by `splice(index, 1)`: remove the first occurrence
when present. -/
def spliceOut (x : Nat) (pages : List Nat) : List Nat :=
  pages.erase x

/-- The error text thrown on the failure path (source line 198). -/
def closeErrMsg (res : String) : String :=
  "Page has already been closed or doesn\x27t exist (" ++ res ++ ")"

/-- Observable effects of one `close()` call. -/
structure CloseEffects where
  pages : List Nat
  celestialClosed : Bool
  outcome : Except String Unit
  deriving Repr

/-- `close()` (source lines 184-199) as a function of the control-plane
response text `res` and the Browser page list: on the exact text
`"Target is closing"` splice this page out of the Browser page list and
return; on any other text close the protocol connection and throw an
error carrying the response text. -/
def closeModel (self : Nat) (pages : List Nat) (res : String) : CloseEffects :=
  if res = "Target is closing" then
    { pages := spliceOut self pages, celestialClosed := false, outcome := Except.ok () }
  else
    { pages := pages, celestialClosed := true, outcome := Except.error (closeErrMsg res) }

/-! ## Invariants of the network-idle state machine -/

/-- Inductive invariant of a network-idle wait with threshold `c`: the
counter is nonnegative, and until the wait has resolved the timer is
armed exactly when the counter is at or below the threshold. -/
def idleInvariant (c : Int) (s : IdleState) : Prop :=
  0 ≤ s.inflight ∧ (s.resolved = true ∨ ((s.timer).isSome = true ↔ s.inflight ≤ c))

/-- Invariant of a wait that has seen no request-start event: the counter
is still zero and the timer is armed unless the wait has already
resolved. -/
def idleFreshInvariant (s : IdleState) : Prop :=
  s.inflight = 0 ∧ ((s.timer).isSome = true ∨ s.resolved = true)

end Astral

namespace Astral

/-! ## Helper lemmas -/

/-- A predicate preserved by each step of a fold holds of the fold. -/
theorem foldl_preserves {α β : Type} (P : α → Prop) (f : α → β → α)
    (hf : ∀ a b, P a → P (f a b)) :
    ∀ (l : List β) (a : α), P a → P (l.foldl f a)
  | [], _, ha => ha
  | b :: l, a, ha => foldl_preserves P f hf l (f a b) (hf a b ha)

/-- A predicate preserved by each step on the members of the list holds
of the fold. -/
theorem foldl_preserves_mem {α β : Type} (P : α → Prop) (f : α → β → α) :
    ∀ (l : List β) (a : α), (∀ b ∈ l, ∀ x, P x → P (f x b)) → P a → P (l.foldl f a)
  | [], _, _, ha => ha
  | b :: l, a, hf, ha =>
    foldl_preserves_mem P f l (f a b) (fun e he x hx => hf e (List.mem_cons_of_mem b he) x hx)
      (hf b (List.mem_cons_self b l) a ha)

/-- Each event-loop step of a network-idle wait keeps the in-flight
counter nonnegative, whatever the threshold. -/
theorem idleStep_nonneg (idleTime : Nat) (c : Int) (s : IdleState)
    (h0 : 0 ≤ s.inflight) (e : NetEvent) : 0 ≤ (idleStep idleTime c s e).inflight := by
  cases e
  case requestWillBeSent =>
    simp only [idleStep, requestStarted]
    split <;> simp <;> omega
  case loadingFinished =>
    simp only [idleStep, requestFinished]
    split
    · exact h0
    · split <;> simp <;> omega
  case loadingFailed =>
    simp only [idleStep, requestFinished]
    split
    · exact h0
    · split <;> simp <;> omega
  case timerFire =>
    cases ht : s.timer <;> simp [idleStep, timerFired, ht, h0]

/-- Each event-loop step of a network-idle wait preserves the
armed-iff-at-or-below-threshold property of an unresolved wait. -/
theorem idleStep_timer_iff (idleTime : Nat) (c : Int) (s : IdleState)
    (hs : s.resolved = true ∨ ((s.timer).isSome = true ↔ s.inflight ≤ c)) (e : NetEvent) :
    (idleStep idleTime c s e).resolved = true ∨
      (((idleStep idleTime c s e).timer).isSome = true ↔
        (idleStep idleTime c s e).inflight ≤ c) := by
  cases e
  case requestWillBeSent =>
    simp only [idleStep, requestStarted]
    rcases hs with hres | hiff
    · split <;> exact Or.inl hres
    · split
      case isTrue hgt =>
        refine Or.inr ?_
        simp only [Option.isSome_none, IdleState.inflight]
        simp
        omega
      case isFalse hle =>
        refine Or.inr ?_
        simp only [IdleState.timer, IdleState.inflight]
        have harm : (s.timer).isSome = true := hiff.mpr (by omega)
        simp [harm]
        omega
  case loadingFinished =>
    simp only [idleStep, requestFinished]
    split
    · exact hs
    case isFalse hne =>
      rcases hs with hres | hiff
      · split <;> exact Or.inl hres
      · split
        case isTrue heq =>
          refine Or.inr ?_
          simp
          omega
        case isFalse hneq =>
          refine Or.inr ?_
          simp only [IdleState.timer, IdleState.inflight]
          by_cases hb : (s.timer).isSome = true
          · have hle := hiff.mp hb
            simp [hb]
            omega
          · have hgt : ¬ s.inflight ≤ c := fun hle => hb (hiff.mpr hle)
            simp only [Bool.not_eq_true] at hb
            simp [hb]
            omega
  case loadingFailed =>
    simp only [idleStep, requestFinished]
    split
    · exact hs
    case isFalse hne =>
      rcases hs with hres | hiff
      · split <;> exact Or.inl hres
      · split
        case isTrue heq =>
          refine Or.inr ?_
          simp
          omega
        case isFalse hneq =>
          refine Or.inr ?_
          simp only [IdleState.timer, IdleState.inflight]
          by_cases hb : (s.timer).isSome = true
          · have hle := hiff.mp hb
            simp [hb]
            omega
          · have hgt : ¬ s.inflight ≤ c := fun hle => hb (hiff.mpr hle)
            simp only [Bool.not_eq_true] at hb
            simp [hb]
            omega
  case timerFire =>
    cases ht : s.timer
    · simpa [idleStep, timerFired, ht] using hs
    · exact Or.inl (by simp [idleStep, timerFired, ht])

/-- Every reachable state of a network-idle wait satisfies the idle
invariant, provided the threshold is nonnegative. -/
theorem idleRun_invariant (idleTime : Nat) (c : Int) (hc : 0 ≤ c) (events : List NetEvent) :
    idleInvariant c (idleRun idleTime c events) := by
  refine foldl_preserves (idleInvariant c) (idleStep idleTime c) ?_ events _ ?_
  · intro a b ⟨h0, hrest⟩
    exact ⟨idleStep_nonneg idleTime c a h0 b, idleStep_timer_iff idleTime c a hrest b⟩
  · refine ⟨le_refl 0, Or.inr ?_⟩
    simp [idleInit]
    omega

/-- The in-flight counter of every reachable state is nonnegative, for
any threshold. -/
theorem idleRun_nonneg (idleTime : Nat) (c : Int) (events : List NetEvent) :
    0 ≤ (idleRun idleTime c events).inflight := by
  refine foldl_preserves (fun s => 0 ≤ s.inflight) (idleStep idleTime c) ?_ events _ ?_
  · intro a b h0
    exact idleStep_nonneg idleTime c a h0 b
  · simp [idleInit]

/-- A step on an event other than request-start preserves the fresh-wait
invariant. -/
theorem idleStep_fresh (idleTime : Nat) (c : Int) (s : IdleState)
    (hs : idleFreshInvariant s) (e : NetEvent) (he : e ≠ NetEvent.requestWillBeSent) :
    idleFreshInvariant (idleStep idleTime c s e) := by
  obtain ⟨h0, ht⟩ := hs
  cases e
  case requestWillBeSent => exact absurd rfl he
  case loadingFinished =>
    have heq : idleStep idleTime c s NetEvent.loadingFinished = s := by
      simp [idleStep, requestFinished, h0]
    rw [heq]
    exact ⟨h0, ht⟩
  case loadingFailed =>
    have heq : idleStep idleTime c s NetEvent.loadingFailed = s := by
      simp [idleStep, requestFinished, h0]
    rw [heq]
    exact ⟨h0, ht⟩
  case timerFire =>
    cases htm : s.timer
    · have heq : idleStep idleTime c s NetEvent.timerFire = s := by
        simp [idleStep, timerFired, htm]
      rw [heq]
      exact ⟨h0, ht⟩
    · refine ⟨?_, Or.inr ?_⟩ <;> simp [idleStep, timerFired, htm, h0]

/-- Every state reached without a request-start event satisfies the
fresh-wait invariant. -/
theorem idleRun_fresh (idleTime : Nat) (c : Int) (events : List NetEvent)
    (h : ∀ e ∈ events, e ≠ NetEvent.requestWillBeSent) :
    idleFreshInvariant (idleRun idleTime c events) := by
  refine foldl_preserves_mem idleFreshInvariant (idleStep idleTime c) events _ ?_ ?_
  · intro b hb x hx
    exact idleStep_fresh idleTime c x hx b (h b hb)
  · exact ⟨rfl, Or.inl (by simp [idleInit])⟩

/-! ## Claim theorems -/

/-- C1: the claim says every event subscription registered by a
network-idle wait or a load-criterion navigation wait is released when
the wait completes. The code violates it: the cleanup removals use
underscore event-type names while the registrations use dotted names, so
the removals are no-ops and every listener the waits registered is still
subscribed after completion. This theorem evaluates the listener table at
the failing input (a wait over an empty table that then completes). -/
theorem waitCleanup_leaves_listeners :
    timeoutDoneUnsubscribe (waitForNetworkIdleSubscribe []) = waitForNetworkIdleSubscribe [] ∧
    waitForNetworkIdleSubscribe [] ≠ [] ∧
    loadWaitUnsubscribe (loadWaitSubscribe []) = loadWaitSubscribe [] ∧
    loadWaitSubscribe [] ≠ [] := by
  decide

/-- C5 invariant: throughout a single network-idle wait — any event
sequence after which the wait has not yet resolved — the idle timer is
armed exactly when the in-flight counter is at or below the idle
threshold; moreover a request-start event raising the counter strictly
above the threshold clears the timer, and a finish or fail event
bringing the counter back to exactly the threshold re-arms the timer for
the idle duration. -/
theorem networkIdle_timer_iff (idleTime : Nat) (c : Int) (hc : 0 ≤ c)
    (events : List NetEvent) (h : (idleRun idleTime c events).resolved = false) :
    (((idleRun idleTime c events).timer).isSome = true ↔
      (idleRun idleTime c events).inflight ≤ c) ∧
    (∀ s : IdleState, s.inflight + 1 > c → (requestStarted c s).timer = none) ∧
    (∀ s : IdleState, s.inflight ≠ 0 → s.inflight - 1 = c →
      (requestFinished idleTime c s).timer = some idleTime) := by
  refine ⟨?_, ?_, ?_⟩
  · rcases (idleRun_invariant idleTime c hc events).2 with hres | hiff
    · rw [h] at hres; cases hres
    · exact hiff
  · intro s hgt
    simp [requestStarted, hgt]
  · intro s hne heq
    simp [requestFinished, hne, heq]

/-- Witness for C5 at the default threshold 0: one request starts and
finishes, after which the wait is unresolved, the counter is back at 0
and the timer is armed. -/
theorem networkIdle_timer_iff_witness :
    (idleRun 500 0 [NetEvent.requestWillBeSent, NetEvent.loadingFinished]).resolved = false ∧
    (((idleRun 500 0 [NetEvent.requestWillBeSent, NetEvent.loadingFinished]).timer).isSome = true ↔
      (idleRun 500 0 [NetEvent.requestWillBeSent, NetEvent.loadingFinished]).inflight ≤ 0) := by
  exact ⟨by decide, (networkIdle_timer_iff 500 0 (by decide) _ (by decide)).1⟩

/-- C6: for every event sequence delivered to a network-idle wait the
in-flight counter stays nonnegative, and a finish or fail event arriving
when the counter is zero leaves the handler state — in particular the
counter — unchanged. -/
theorem networkIdle_counter_floor (idleTime : Nat) (c : Int) (events : List NetEvent) :
    0 ≤ (idleRun idleTime c events).inflight ∧
    (∀ s : IdleState, s.inflight = 0 → requestFinished idleTime c s = s) := by
  refine ⟨idleRun_nonneg idleTime c events, ?_⟩
  intro s h0
  simp [requestFinished, h0]

/-- Witness for C6: two finish events with no preceding start leave the
counter at 0, and the finish handler fixes the initial state. -/
theorem networkIdle_counter_floor_witness :
    0 ≤ (idleRun 500 0 [NetEvent.loadingFinished, NetEvent.loadingFailed]).inflight ∧
    requestFinished 500 0 (idleInit 500) = idleInit 500 := by
  exact ⟨(networkIdle_counter_floor 500 0 [NetEvent.loadingFinished, NetEvent.loadingFailed]).1,
    (networkIdle_counter_floor 500 0 []).2 (idleInit 500) rfl⟩

/-- C10: the in-flight counter of a network-idle wait is initialized to
zero at subscription time, so pre-existing outstanding requests are not
counted; consequently, over any event sequence containing no
request-start event, the idle timer stays armed (or has already fired)
and its firing resolves the wait. -/
theorem networkIdle_fresh_resolves (idleTime : Nat) (c : Int) (events : List NetEvent)
    (h : ∀ e ∈ events, e ≠ NetEvent.requestWillBeSent) :
    (idleInit idleTime).inflight = 0 ∧
    (idleRun idleTime c (events ++ [NetEvent.timerFire])).resolved = true := by
  refine ⟨rfl, ?_⟩
  have hfresh := idleRun_fresh idleTime c events h
  have happ : idleRun idleTime c (events ++ [NetEvent.timerFire])
      = idleStep idleTime c (idleRun idleTime c events) NetEvent.timerFire := by
    simp [idleRun, List.foldl_append]
  rw [happ]
  rcases hfresh.2 with harm | hres
  · cases htm : (idleRun idleTime c events).timer
    · rw [htm] at harm; cases harm
    · simp [idleStep, timerFired, htm]
  · cases htm : (idleRun idleTime c events).timer <;>
      simp [idleStep, timerFired, htm, hres]

/-- Witness for C10: a finish event with no start events, then the timer
fires; the wait resolves. -/
theorem networkIdle_fresh_resolves_witness :
    (idleInit 500).inflight = 0 ∧
    (idleRun 500 0 ([NetEvent.loadingFinished] ++ [NetEvent.timerFire])).resolved = true := by
  exact networkIdle_fresh_resolves 500 0 [NetEvent.loadingFinished] (by decide)

/-- C2 counterexample: the claim says a close call whose response text
indicates success removes the page from the Browser page collection and
closes the protocol connection. At the concrete success response the
code leaves the protocol connection open, so the claim as stated is
false. -/
theorem close_success_leaves_connection_open :
    ¬ ((closeModel 1 [1] ("Target is closing")).celestialClosed = true) := by
  decide

/-- C2 (amended): close issues the out-of-band HTTP close call; when the
response text indicates success it removes the page from the Browser
page collection and returns without touching the protocol connection,
and on any other response text it closes the local protocol connection
and then reports a failure whose message includes the response text. -/
theorem close_effects (self : Nat) (pages : List Nat) (res : String) :
    (res = "Target is closing" →
      (closeModel self pages res).pages = spliceOut self pages ∧
      (closeModel self pages res).celestialClosed = false ∧
      (closeModel self pages res).outcome = Except.ok ()) ∧
    (res ≠ "Target is closing" →
      (closeModel self pages res).pages = pages ∧
      (closeModel self pages res).celestialClosed = true ∧
      (closeModel self pages res).outcome = Except.error (closeErrMsg res) ∧
      ∃ pre post, closeErrMsg res = pre ++ res ++ post) := by
  constructor
  · intro h
    refine ⟨?_, ?_, ?_⟩ <;> simp [closeModel, h]
  · intro h
    refine ⟨?_, ?_, ?_, ?_⟩
    · simp [closeModel, h]
    · simp [closeModel, h]
    · simp [closeModel, h]
    · exact ⟨"Page has already been closed or doesn\x27t exist (", ")", rfl⟩

/-- Witness for C2 (amended) at a success response and a failure
response. -/
theorem close_effects_witness :
    (closeModel 7 [3, 7, 9] ("Target is closing")).pages = [3, 9] ∧
    (closeModel 7 [3, 7, 9] ("No such target")).celestialClosed = true := by
  constructor
  · have h := (close_effects 7 [3, 7, 9] ("Target is closing")).1 rfl
    rw [h.1]
    decide
  · exact ((close_effects 7 [3, 7, 9] ("No such target")).2 (by decide)).2.1

/-- C3: the unmarshalling of a remote evaluation response applies, in
this precedence: reported exception details are thrown; otherwise a
bigint type tag yields the big integer parsed from the string encoding
with its trailing marker stripped; otherwise an undefined type tag
yields undefined; otherwise an object type tag with subtype null yields
null; otherwise the transported value is returned unchanged. -/
theorem evaluate_unmarshal_precedence (r : EvaluateResponse) :
    (∀ d, r.exceptionDetails = some d → evaluateUnmarshal r = EvalOutcome.thrown d) ∧
    (∀ s, r.exceptionDetails = none → r.result.type = "bigint" →
      r.result.unserializableValue = some s →
      evaluateUnmarshal r = EvalOutcome.bigintVal (parseBigInt (sliceDropLast s))) ∧
    (r.exceptionDetails = none → r.result.type = "undefined" →
      evaluateUnmarshal r = EvalOutcome.undefinedVal) ∧
    (r.exceptionDetails = none → r.result.type = "object" → r.result.subtype = some ("null") →
      evaluateUnmarshal r = EvalOutcome.nullVal) ∧
    (r.exceptionDetails = none → r.result.type ≠ "bigint" → r.result.type ≠ "undefined" →
      ¬(r.result.type = "object" ∧ r.result.subtype = some ("null")) →
      evaluateUnmarshal r = EvalOutcome.plainVal (r.result.value)) := by
  refine ⟨?_, ?_, ?_, ?_, ?_⟩
  · intro d hd
    simp [evaluateUnmarshal, hd]
  · intro s he ht hu
    simp [evaluateUnmarshal, he, ht, hu]
  · intro he ht
    have hb : r.result.type ≠ "bigint" := by rw [ht]; decide
    simp [evaluateUnmarshal, he, ht, hb]
  · intro he ht hs
    have hb : r.result.type ≠ "bigint" := by rw [ht]; decide
    have hu : r.result.type ≠ "undefined" := by rw [ht]; decide
    simp [evaluateUnmarshal, he, ht, hb, hu, hs]
  · intro he h1 h2 h3
    simp only [evaluateUnmarshal, he]
    rw [if_neg h1, if_neg h2]
    by_cases ho : r.result.type = "object"
    · rw [if_pos ho, if_neg (fun hn => h3 ⟨ho, hn⟩)]
    · rw [if_neg ho]

/-- Witness for C3: a bigint response parses its stripped encoding, and
an object-null response yields null. -/
theorem evaluate_unmarshal_precedence_witness :
    evaluateUnmarshal { result := { type := "bigint", unserializableValue := some ("123n") } }
      = EvalOutcome.bigintVal 123 ∧
    evaluateUnmarshal { result := { type := "object", subtype := some ("null") } }
      = EvalOutcome.nullVal := by
  constructor
  · have h := (evaluate_unmarshal_precedence
        { result := { type := "bigint", unserializableValue := some ("123n") } }).2.1
        ("123n") rfl rfl rfl
    rw [h]
    decide
  · exact (evaluate_unmarshal_precedence
      { result := { type := "object", subtype := some ("null") } }).2.2.2.1 rfl rfl rfl

/-- A load-criterion navigation wait is the single load phase. -/
theorem waitForNavigationPhases_load :
    waitForNavigationPhases (some { waitUntil := some WaitUntil.load }) = [NavPhase.loadWait] := by
  rw [waitForNavigationPhases]
  simp

/-- C4: a navigation wait under any criterion other than load (including
the default networkidle2 taken when no options are given) first runs a
full load-criterion wait and only then a network-idle wait with idle
duration 500 and idle threshold 0 for networkidle0 or 2 otherwise; in
the phase sequence the load wait precedes the idle wait, so the wait
cannot resolve before its internal load sub-wait has resolved. -/
theorem waitForNavigation_nonload (options : Option WaitForOptions) (d : NavPhase → Nat)
    (h : (options.getD { waitUntil := some WaitUntil.networkidle2 }).waitUntil
      ≠ some WaitUntil.load) :
    waitForNavigationPhases options =
      [NavPhase.loadWait,
        NavPhase.idleWait 500
          (if (options.getD { waitUntil := some WaitUntil.networkidle2 }).waitUntil
              = some WaitUntil.networkidle0 then 0 else 2)] ∧
    d NavPhase.loadWait ≤ navResolveTime d (waitForNavigationPhases options) := by
  have hmain : waitForNavigationPhases options =
      [NavPhase.loadWait,
        NavPhase.idleWait 500
          (if (options.getD { waitUntil := some WaitUntil.networkidle2 }).waitUntil
              = some WaitUntil.networkidle0 then 0 else 2)] := by
    rw [waitForNavigationPhases, dif_pos h, waitForNavigationPhases_load, if_neg h]
    by_cases h0 : (options.getD { waitUntil := some WaitUntil.networkidle2 }).waitUntil
        = some WaitUntil.networkidle0
    · rw [if_pos h0, if_pos h0]
      decide
    · rw [if_neg h0, if_neg h0]
      decide
  refine ⟨hmain, ?_⟩
  rw [hmain]
  simp [navResolveTime]

/-- Witness for C4: default options give load then networkidle with
threshold 2; explicit networkidle0 gives load then threshold 0. -/
theorem waitForNavigation_nonload_witness :
    waitForNavigationPhases none = [NavPhase.loadWait, NavPhase.idleWait 500 2] ∧
    waitForNavigationPhases (some { waitUntil := some WaitUntil.networkidle0 })
      = [NavPhase.loadWait, NavPhase.idleWait 500 0] := by
  constructor
  · have h := (waitForNavigation_nonload none (fun _ => 0) (by decide)).1
    rw [h]
    decide
  · have h := (waitForNavigation_nonload (some { waitUntil := some WaitUntil.networkidle0 })
      (fun _ => 0) (by decide)).1
    rw [h]
    decide

/-- C7: goto and reload each schedule the deadline-wrapped navigation or
reload RPC and the waitForNavigation wait together at time 0 — not
sequentially — and each settles exactly at the later of its two arms, so
neither resolves before both the RPC acknowledgement and the
navigation-completion signal have resolved. -/
theorem goto_reload_concurrent (d : PrimOp → Nat) :
    (PrimOp.navigateRpc, 0) ∈ startTimes d gotoAsync 0 ∧
    (PrimOp.navigationWait, 0) ∈ startTimes d gotoAsync 0 ∧
    (PrimOp.reloadRpc, 0) ∈ startTimes d reloadAsync 0 ∧
    (PrimOp.navigationWait, 0) ∈ startTimes d reloadAsync 0 ∧
    finishTime d gotoAsync 0
      = max (finishTime d (Async.withDeadline (Async.prim PrimOp.navigateRpc) pageTimeout) 0)
          (finishTime d (Async.prim PrimOp.navigationWait) 0) ∧
    finishTime d (Async.withDeadline (Async.prim PrimOp.navigateRpc) pageTimeout) 0
      ≤ finishTime d gotoAsync 0 ∧
    finishTime d (Async.prim PrimOp.navigationWait) 0 ≤ finishTime d gotoAsync 0 ∧
    finishTime d reloadAsync 0
      = max (finishTime d (Async.withDeadline (Async.prim PrimOp.reloadRpc) pageTimeout) 0)
          (finishTime d (Async.prim PrimOp.navigationWait) 0) ∧
    finishTime d (Async.withDeadline (Async.prim PrimOp.reloadRpc) pageTimeout) 0
      ≤ finishTime d reloadAsync 0 ∧
    finishTime d (Async.prim PrimOp.navigationWait) 0 ≤ finishTime d reloadAsync 0 := by
  refine ⟨?_, ?_, ?_, ?_, ?_, ?_, ?_, ?_, ?_, ?_⟩ <;>
    simp [gotoAsync, reloadAsync, startTimes, finishTime]

/-- When every attempt returns an empty result the retry loop never
produces a document, whatever its budget. -/
theorem getDocumentLoop_none :
    ∀ (fuel : Nat) (resp : Nat → Option Nat), (∀ n, resp n = none) →
      getDocumentLoop resp fuel = none
  | 0, _, _ => rfl
  | fuel + 1, resp, h => by
    have heq : getDocumentLoop resp (fuel + 1)
        = getDocumentLoop (fun n => resp (n + 1)) fuel := by
      simp [getDocumentLoop, h 0]
    rw [heq]
    exact getDocumentLoop_none fuel (fun n => resp (n + 1)) (fun n => h (n + 1))

/-- The retry loop returns the first non-empty attempt when it falls
within the budget, retrying through every earlier empty attempt. -/
theorem getDocumentLoop_first :
    ∀ (fuel k : Nat) (resp : Nat → Option Nat) (r : Nat), k < fuel → resp k = some r →
      (∀ j, j < k → resp j = none) → getDocumentLoop resp fuel = some r
  | 0, k, _, _, hlt, _, _ => absurd hlt (Nat.not_lt_zero k)
  | fuel + 1, 0, resp, r, _, hk, _ => by
    simp [getDocumentLoop, hk]
  | fuel + 1, k + 1, resp, r, hlt, hk, hj => by
    have h0 : resp 0 = none := hj 0 (Nat.succ_pos k)
    have heq : getDocumentLoop resp (fuel + 1)
        = getDocumentLoop (fun n => resp (n + 1)) fuel := by
      simp [getDocumentLoop, h0]
    rw [heq]
    exact getDocumentLoop_first fuel k (fun n => resp (n + 1)) r (by omega) hk
      (fun j hjk => hj (j + 1) (by omega))

/-- C8: the document-root resolver re-issues the get-document call once
per time unit with no inter-attempt delay, bounded by the deadline
executor with the page default timeout: if every attempt returns an
empty result the call terminates with a deadline error rather than
looping forever, and the first non-empty attempt within the budget is
returned. -/
theorem getRoot_deadline_bounded (resp : Nat → Option Nat) :
    ((∀ n, resp n = none) → getRoot resp = Except.error ("DeadlineExceeded")) ∧
    (∀ k r, k < pageTimeout → resp k = some r → (∀ j, j < k → resp j = none) →
      getRoot resp = Except.ok r) := by
  constructor
  · intro h
    simp [getRoot, getRootModel, retryDeadline, getDocumentLoop_none pageTimeout resp h]
  · intro k r hk hr hj
    simp [getRoot, getRootModel, retryDeadline,
      getDocumentLoop_first pageTimeout k resp r hk hr hj]

/-- Witness for C8: a persistently empty stream times out; a stream whose
third attempt is the first non-empty one returns it. -/
theorem getRoot_deadline_bounded_witness :
    getRoot (fun _ => none) = Except.error ("DeadlineExceeded") ∧
    getRoot (fun n => if n = 2 then some 42 else none) = Except.ok 42 := by
  constructor
  · exact (getRoot_deadline_bounded (fun _ => none)).1 (fun _ => rfl)
  · refine (getRoot_deadline_bounded (fun n => if n = 2 then some 42 else none)).2
      2 42 (by decide) (by decide) ?_
    intro j hj
    show (if j = 2 then some 42 else none) = none
    rw [if_neg (by omega)]

/-- The polling loop of waitForFunction only ever produces a truthy
value. -/
theorem pollLoop_truthy :
    ∀ (fuel : Nat) (evalStream : Nat → JSValue) (v : JSValue),
      pollLoop evalStream fuel = some v → truthy v = true
  | 0, _, _, h => by cases h
  | fuel + 1, evalStream, v, h => by
    by_cases ht : truthy (evalStream 0) = true
    · have heq : pollLoop evalStream (fuel + 1) = some (evalStream 0) := by
        simp [pollLoop, ht]
      rw [heq] at h
      have hv := Option.some.inj h
      rw [← hv]
      exact ht
    · have heq : pollLoop evalStream (fuel + 1)
          = pollLoop (fun n => evalStream (n + 1)) fuel := by
        simp [pollLoop, ht]
      rw [heq] at h
      exact pollLoop_truthy fuel (fun n => evalStream (n + 1)) v h

/-- C9: even when the polled evaluation produces a truthy value, that
value is discarded: waitForFunction resolves with undefined, never with
the value that satisfied the predicate. -/
theorem waitForFunction_discards_result (evalStream : Nat → JSValue) (budget : Nat)
    (v : JSValue) (h : pollLoop evalStream budget = some v) :
    truthy v = true ∧
    waitForFunctionModel evalStream budget = Except.ok JSValue.undefinedVal ∧
    waitForFunctionModel evalStream budget ≠ Except.ok v := by
  have ht := pollLoop_truthy budget evalStream v h
  have hm : waitForFunctionModel evalStream budget = Except.ok JSValue.undefinedVal := by
    simp [waitForFunctionModel, h]
  refine ⟨ht, hm, ?_⟩
  rw [hm]
  intro hcontra
  injection hcontra with h2
  rw [← h2] at ht
  exact absurd ht (by decide)

/-- Witness for C9: every poll returns 42, the loop succeeds with 42,
and the method still resolves with undefined. -/
theorem waitForFunction_discards_result_witness :
    truthy (JSValue.numVal 42) = true ∧
    waitForFunctionModel (fun _ => JSValue.numVal 42) 1 = Except.ok JSValue.undefinedVal := by
  have h := waitForFunction_discards_result (fun _ => JSValue.numVal 42) 1
    (JSValue.numVal 42) (by decide)
  exact ⟨h.1, h.2.1⟩

end Astral
